import Mathlib

/-!
Shallow embedding of the repo-tool core (multi-provider repository
operations layer) and verification of its specification claims.

Modelled source files:
- src/repo_tool/core/messages.py   (MessageCenter event log)
- src/repo_tool/core/git_progress.py (ProgressReporter)
- src/repo_tool/core/repo.py       (RepoManager: catalog + download)
- src/repo_tool/tui/app.py         (MultiDownloadScreen batch loop)
- repo_manager/core/repo_handler.py (RepositoryHandler.list_all_repos)
- repo_manager/core/credential_manager.py / src/repo_tool/core/auth.py

Conventions: Python datetime timestamps are modelled as Nat (the code
stores datetime.isoformat() strings and compares them with SQL string
comparison, which is order-isomorphic to the underlying times, so any
linear order is faithful); SQLite REAL progress values are modelled as
Rat; Python dicts used as JSON detail maps are modelled as association
lists; raised exceptions are modelled with Except.
-/

namespace RepoTool

/-! ## Event log: messages.py -/

/-- MessageType enum from messages.py. -/
inductive MessageType where
  | info
  | success
  | warning
  | error
  | progress
deriving DecidableEq

/-- Message dataclass / one row of the messages table (the storage id
column is left implicit as the position in the store list, which models
the AUTOINCREMENT rowid insertion order). -/
structure Message where
  type : MessageType
  text : String
  timestamp : Nat
  source : String
  details : Option (List (String × String))
  progress : Option Rat
deriving DecidableEq

/-- The messages table, in rowid (insertion) order. -/
abbrev MessageStore := List Message

/-- Python truthiness of the optional details dict: None and the empty
dict are falsy (`json.dumps(message.details) if message.details else None`). -/
def truthyDetails : Option (List (String × String)) → Bool
  | none => false
  | some [] => false
  | some (_ :: _) => true

/-- Python truthiness of an optional string argument: None and the
empty string are falsy. -/
def truthyStr : Option String → Bool
  | none => false
  | some s => s ≠ ""

/-- What the details column stores and later reads back: NULL when the
dict argument is falsy (absent or empty), the JSON-serialised map
otherwise. -/
def storedDetails (d : Option (List (String × String))) : Option (List (String × String)) :=
  if truthyDetails d then d else none

/-- MessageCenter.add_message: constructs the Message, INSERTs a row,
and returns the constructed Message (not the row as re-read). `now`
models datetime.now(). -/
def add_message (store : MessageStore) (text : String) (type : MessageType)
    (source : String) (details : Option (List (String × String)))
    (progress : Option Rat) (now : Nat) : MessageStore × Message :=
  let message : Message :=
    { type := type, text := text, timestamp := now, source := source
      details := details, progress := progress }
  let row : Message := { message with details := storedDetails details }
  (store ++ [row], message)

/-- The conjunctive WHERE clause built by MessageCenter.get_messages.
Python truthiness: a MessageType enum member and a datetime are always
truthy, but an empty source string is falsy and drops the source
filter. The since filter is strict (`timestamp > ?`). -/
def matchesFilters (type : Option MessageType) (source : Option String)
    (since : Option Nat) (m : Message) : Bool :=
  (match type with
   | none => true
   | some t => m.type == t) &&
  (match source with
   | none => true
   | some s => if s = "" then true else m.source == s) &&
  (match since with
   | none => true
   | some ts => decide (ts < m.timestamp))

/-- Insert a message into a list sorted by timestamp descending
(models the ORDER BY timestamp DESC step; SQLite leaves the relative
order of equal keys unspecified, this model fixes one choice). -/
def insertByTsDesc (m : Message) : List Message → List Message
  | [] => [m]
  | x :: xs =>
    if x.timestamp < m.timestamp then m :: x :: xs else x :: insertByTsDesc m xs

/-- Sort by timestamp descending. -/
def sortByTsDesc : List Message → List Message
  | [] => []
  | x :: xs => insertByTsDesc x (sortByTsDesc xs)

/-- MessageCenter.get_messages: conjunctive filters, ORDER BY timestamp
DESC, then LIMIT. Python truthiness: `if limit:` means limit 0 (like
None) applies no LIMIT. -/
def get_messages (store : MessageStore) (limit : Option Nat)
    (type : Option MessageType) (source : Option String)
    (since : Option Nat) : List Message :=
  let sorted := sortByTsDesc (store.filter (matchesFilters type source since))
  match limit with
  | none => sorted
  | some 0 => sorted
  | some (n + 1) => sorted.take (n + 1)

/-- The conjunctive WHERE clause built by MessageCenter.clear_messages:
a row matches when it is deleted. The older_than bound is strict
(`timestamp < ?`); an empty source string is falsy and drops the
source filter. -/
def clearPred (older_than : Option Nat) (type : Option MessageType)
    (source : Option String) (m : Message) : Bool :=
  (match older_than with
   | none => true
   | some t => decide (m.timestamp < t)) &&
  (match type with
   | none => true
   | some t => m.type == t) &&
  (match source with
   | none => true
   | some s => if s = "" then true else m.source == s)

/-- MessageCenter.clear_messages: DELETE with the conjunctive WHERE
clause; returns cursor.rowcount (the number of deleted rows) and the
remaining table. -/
def clear_messages (store : MessageStore) (older_than : Option Nat)
    (type : Option MessageType) (source : Option String) : Nat × MessageStore :=
  ((store.filter (clearPred older_than type source)).length,
   store.filter (fun m => !(clearPred older_than type source m)))

/-- Does this row match `WHERE source = ? AND type = 'progress'`? -/
def isProgressRowFor (source : String) (m : Message) : Bool :=
  m.source == source && m.type == MessageType.progress

/-- Timestamp of the latest Progress-kind row for a source, if any
(the row selected by `ORDER BY timestamp DESC LIMIT 1`). -/
def latestProgressTs (source : String) : MessageStore → Option Nat
  | [] => none
  | m :: rest =>
    let t := latestProgressTs source rest
    if isProgressRowFor source m then
      match t with
      | none => some m.timestamp
      | some ts => some (max m.timestamp ts)
    else t

/-- Replace the first row matching the source/progress-kind guard with
the given timestamp, leaving every other row unchanged. -/
def updateFirstWith (source : String) (ts : Nat) (f : Message → Message) :
    MessageStore → MessageStore
  | [] => []
  | m :: rest =>
    if isProgressRowFor source m && m.timestamp == ts then f m :: rest
    else m :: updateFirstWith source ts f rest

/-- The SET clause of MessageCenter.update_progress: progress always,
text only when the text argument is truthy (`if text:`). -/
def progressUpdateRow (progress : Rat) (text : Option String) (m : Message) : Message :=
  if truthyStr text then
    { m with progress := some progress, text := text.getD m.text }
  else
    { m with progress := some progress }

/-- MessageCenter.update_progress: an UPDATE limited to the single
Progress-kind row for the source with the greatest timestamp; a no-op
when no such row exists. Never inserts a row. -/
def update_progress (store : MessageStore) (source : String) (progress : Rat)
    (text : Option String) : MessageStore :=
  match latestProgressTs source store with
  | none => store
  | some ts => updateFirstWith source ts (progressUpdateRow progress text) store

/-! ## Progress reporting: git_progress.py -/

/-- ProgressReporter.update from git_progress.py, as the value handed
to the callback, if any. `max_count` is optional; Python truthiness
(`if max_count:`) means both None and 0 suppress the callback, so no
percentage is fabricated when no total is known. Otherwise the
callback receives `cur_count / float(max_count) * 100.0` (float
arithmetic modelled exactly over Rat). -/
def progressUpdate (cur_count : Nat) (max_count : Option Nat) : Option Rat :=
  match max_count with
  | none => none
  | some 0 => none
  | some m => some ((cur_count : Rat) / (m : Rat) * 100)

/-! ## Repository catalog and download: repo.py, app.py, repo_handler.py -/

/-- Repository dataclass from repo.py. -/
structure Repository where
  name : String
  service : String
  url : String
  description : Option String := none
  default_branch : String := "main"
deriving DecidableEq

/-- A filesystem path, as its list of components. -/
abbrev FsPath := List String

/-- The errors download_repository can raise: the ValueError raised on
an already-existing target directory (the ConflictError of the spec
taxonomy), or any exception propagated from git.Repo.clone_from. -/
inductive RepoError where
  | conflictError (path : FsPath)
  | cloneError (msg : String)
deriving DecidableEq

/-- All ancestor paths of a path, the path itself included. -/
def pathAncestors (p : FsPath) : List FsPath :=
  (List.range (p.length + 1)).map (fun n => p.take n)

/-- Path.mkdir(parents=True, exist_ok=True): the filesystem (modelled
as the list of existing paths) gains the directory and any missing
ancestors; existing paths are untouched. -/
def mkdirParents (fs : List FsPath) (dest : FsPath) : List FsPath :=
  fs ++ (pathAncestors dest).filter (fun q => !(fs.contains q))

/-- RepoManager.download_repository. The external git transport
(git.Repo.clone_from) is a parameter `clone` returning either a raised
exception message or the list of paths the clone creates. Returns the
outcome (ok, or the raised error — both re-raised after logging) and
the filesystem after the call. The conflict check happens after the
destination mkdir and before the clone starts. -/
def download_repository (clone : Repository → FsPath → Except String (List FsPath))
    (fs : List FsPath) (repo : Repository) (destination : FsPath) :
    Except RepoError Unit × List FsPath :=
  let fs1 := mkdirParents fs destination
  let repoPath := destination ++ [repo.name]
  if repoPath ∈ fs1 then
    (Except.error (RepoError.conflictError repoPath), fs1)
  else
    match clone repo repoPath with
    | Except.error e => (Except.error (RepoError.cloneError e), fs1)
    | Except.ok created => (Except.ok (), fs1 ++ created)

/-- MultiDownloadScreen._download from tui/app.py: a plain for-loop
over the selected repositories calling download_repository with no
try/except around the body, so a raised exception propagates and ends
the loop. Returns the outcome, the final filesystem, and the names of
the repositories for which a download was actually attempted. -/
def multi_download (clone : Repository → FsPath → Except String (List FsPath))
    (fs : List FsPath) (repos : List Repository) (dest : FsPath) :
    Except RepoError Unit × List FsPath × List String :=
  match repos with
  | [] => (Except.ok (), fs, [])
  | r :: rest =>
    match download_repository clone fs r dest with
    | (Except.error e, fs1) => (Except.error e, fs1, [r.name])
    | (Except.ok _, fs1) =>
      let tail := multi_download clone fs1 rest dest
      (tail.1, tail.2.1, r.name :: tail.2.2)

/-- One iteration of the RepoManager.get_all_repositories loop over
`self.clients.items()`: an absent client (no token stored) contributes
nothing; a listing that raises is caught, logged via logger.error, and
excluded; a successful listing is appended to the accumulator. -/
def fetchStep (acc : List Repository × List String)
    (entry : Option (Except String (List Repository))) :
    List Repository × List String :=
  match entry with
  | none => acc
  | some (Except.ok rs) => (acc.1 ++ rs, acc.2)
  | some (Except.error e) => (acc.1, acc.2 ++ [e])

/-- RepoManager.get_all_repositories. `_setup_clients` inserts clients
into the dict in the order github, gitlab, bitbucket (each only when a
token is stored), and Python dicts iterate in insertion order, so the
services are visited in that fixed order. Each provider listing is an
oracle: absent client, raised error, or repository list. Returns the
aggregated repositories and the logged error messages. -/
def get_all_repositories
    (github gitlab bitbucket : Option (Except String (List Repository))) :
    List Repository × List String :=
  fetchStep (fetchStep (fetchStep ([], []) github) gitlab) bitbucket

/-- RepositoryHandler.list_all_repos from repo_manager/core/repo_handler.py:
extends the accumulator with each platform listing in the order github,
gitlab, bitbucket, with no exception handling — a listing that raises
propagates immediately. An unconfigured platform lists as ok []. -/
def list_all_repos (github gitlab bitbucket : Except String (List Repository)) :
    Except String (List Repository) := do
  let g ← github
  let l ← gitlab
  let b ← bitbucket
  return g ++ l ++ b

/-! ## Secret store: auth.py and credential_manager.py -/

/-- The OS keyring within the application namespace, as an association
list from entry key to secret. -/
abbrev Vault := List (String × String)

/-- The error keyring.delete_password raises for an absent entry.
Modelled from the keyring library contract at the interface boundary,
as evidenced in the repository itself: credential_manager.py catches
keyring.errors.PasswordDeleteError with the comment that the
credential did not exist. -/
inductive PasswordDeleteError where
  | itemNotFound
deriving DecidableEq

/-- keyring.delete_password: deletes the entry for the key, raising
PasswordDeleteError when no such entry exists. -/
def keyring_delete_password (vault : Vault) (key : String) :
    Except PasswordDeleteError Vault :=
  if vault.any (fun e => e.1 == key) then
    Except.ok (vault.filter (fun e => !(e.1 == key)))
  else
    Except.error PasswordDeleteError.itemNotFound

/-- TokenManager.remove_token from auth.py: calls
keyring.delete_password directly with no exception handling, so any
PasswordDeleteError propagates to the caller. -/
def remove_token (vault : Vault) (service : String) :
    Except PasswordDeleteError Vault :=
  keyring_delete_password vault service

/-- CredentialManager.delete_credential from credential_manager.py:
calls keyring.delete_password and swallows PasswordDeleteError, so an
absent entry is a no-op rather than a failure. -/
def delete_credential (vault : Vault) (key : String) : Vault :=
  match keyring_delete_password vault key with
  | Except.ok v => v
  | Except.error _ => vault

/-! ## Shared helper lemmas -/

instance {ε α : Type} [DecidableEq ε] [DecidableEq α] : DecidableEq (Except ε α)
  | Except.error e1, Except.error e2 =>
    if h : e1 = e2 then Decidable.isTrue (congrArg Except.error h)
    else Decidable.isFalse (fun hh => h (Except.error.inj hh))
  | Except.error _, Except.ok _ => Decidable.isFalse (fun hh => Except.noConfusion hh)
  | Except.ok _, Except.error _ => Decidable.isFalse (fun hh => Except.noConfusion hh)
  | Except.ok v1, Except.ok v2 =>
    if h : v1 = v2 then Decidable.isTrue (congrArg Except.ok h)
    else Decidable.isFalse (fun hh => h (Except.ok.inj hh))

/-- For a known positive total, ProgressReporter.update reports
exactly current over total times one hundred. -/
theorem progressUpdate_pos (c t : Nat) (h : 0 < t) :
    progressUpdate c (some t) = some ((c : Rat) / (t : Rat) * 100) := by
  cases t with
  | zero => exact absurd h (lt_irrefl 0)
  | succ n => rfl

/-- updateFirstWith never changes the number of rows. -/
theorem updateFirstWith_length (source : String) (ts : Nat) (f : Message → Message)
    (l : MessageStore) : (updateFirstWith source ts f l).length = l.length := by
  induction l with
  | nil => rfl
  | cons m rest ih =>
    unfold updateFirstWith
    split
    · simp
    · simp [ih]

/-- Each position of updateFirstWith either keeps the original row or
holds the image under f of an original row matching the guard. -/
theorem updateFirstWith_getElem (source : String) (ts : Nat) (f : Message → Message)
    (l : MessageStore) (i : Nat) :
    (updateFirstWith source ts f l)[i]? = l[i]? ∨
    ∃ m, l[i]? = some m ∧ isProgressRowFor source m = true ∧
      (updateFirstWith source ts f l)[i]? = some (f m) := by
  induction l generalizing i with
  | nil => left; rfl
  | cons m rest ih =>
    unfold updateFirstWith
    split
    · rename_i hguard
      have hg : isProgressRowFor source m = true := by
        cases hpr : isProgressRowFor source m
        · rw [hpr] at hguard; simp at hguard
        · rfl
      cases i with
      | zero => right; exact ⟨m, by simp, hg, by simp⟩
      | succ j => left; simp
    · cases i with
      | zero => left; simp
      | succ j =>
        rcases ih j with h | ⟨m2, hm2, hg, hupd⟩
        · left; simpa using h
        · right; exact ⟨m2, by simpa using hm2, hg, by simpa using hupd⟩

/-- Sorting after appending a strictly-newest message puts that
message first and leaves the rest as before. -/
theorem sortByTsDesc_append_max (l : List Message) (m : Message)
    (h : ∀ y ∈ l, y.timestamp < m.timestamp) :
    sortByTsDesc (l ++ [m]) = m :: sortByTsDesc l := by
  induction l with
  | nil => rfl
  | cons x xs ih =>
    have hx : x.timestamp < m.timestamp := h x (by simp)
    have htail : sortByTsDesc (xs ++ [m]) = m :: sortByTsDesc xs :=
      ih (fun y hy => h y (by simp [hy]))
    show insertByTsDesc x (sortByTsDesc (xs ++ [m])) = m :: insertByTsDesc x (sortByTsDesc xs)
    rw [htail]
    show (if m.timestamp < x.timestamp then x :: m :: sortByTsDesc xs
          else m :: insertByTsDesc x (sortByTsDesc xs)) = _
    rw [if_neg (by omega)]

/-- Unfolding equation for multi_download when the head download
raises: the loop stops with that error. -/
theorem multi_download_cons_error
    (clone : Repository → FsPath → Except String (List FsPath))
    (fs : List FsPath) (r : Repository) (rest : List Repository) (dest : FsPath)
    (e : RepoError) (fs1 : List FsPath)
    (h : download_repository clone fs r dest = (Except.error e, fs1)) :
    multi_download clone fs (r :: rest) dest = (Except.error e, fs1, [r.name]) := by
  unfold multi_download
  rw [h]

/-- Unfolding equation for multi_download when the head download
succeeds: the loop continues on the updated filesystem. -/
theorem multi_download_cons_ok
    (clone : Repository → FsPath → Except String (List FsPath))
    (fs : List FsPath) (r : Repository) (rest : List Repository) (dest : FsPath)
    (fs1 : List FsPath)
    (h : download_repository clone fs r dest = (Except.ok (), fs1)) :
    multi_download clone fs (r :: rest) dest =
      ((multi_download clone fs1 rest dest).1,
       (multi_download clone fs1 rest dest).2.1,
       r.name :: (multi_download clone fs1 rest dest).2.2) := by
  show (match download_repository clone fs r dest with
    | (Except.error e, fs1) => (Except.error e, fs1, [r.name])
    | (Except.ok _, fs1) =>
      let tail := multi_download clone fs1 rest dest
      (tail.1, tail.2.1, r.name :: tail.2.2)) = _
  rw [h]

/-! ## Claim theorems -/

/-- C4: for every transport progress callback with current count c and
known total t greater than zero, ProgressReporter.update hands the
callback percent equal to c divided by t times 100; when no total is
known, no progress value is emitted. -/
theorem C4_percent_formula (c t : Nat) (h : 0 < t) :
    progressUpdate c (some t) = some ((c : Rat) / (t : Rat) * 100) ∧
    progressUpdate c none = none :=
  ⟨progressUpdate_pos c t h, rfl⟩

theorem C4_percent_formula_witness :
    progressUpdate 50 (some 200) = some ((50 : Rat) / (200 : Rat) * 100) ∧
    progressUpdate 200 (some 200) = some ((200 : Rat) / (200 : Rat) * 100) ∧
    (50 : Rat) / 200 * 100 = 25 ∧ (200 : Rat) / 200 * 100 = 100 :=
  ⟨(C4_percent_formula 50 200 (by norm_num)).1,
   (C4_percent_formula 200 200 (by norm_num)).1,
   by norm_num, by norm_num⟩

/-- C6: purging with older_than equal to T deletes exactly the
messages with timestamp strictly below T, leaves every message with
timestamp at or above T in place and in order, and returns the number
of messages removed. -/
theorem C6_purge_boundary (store : MessageStore) (T : Nat) :
    clear_messages store (some T) none none =
      ((store.filter (fun m => decide (m.timestamp < T))).length,
       store.filter (fun m => !(decide (m.timestamp < T)))) := by
  have hpred : clearPred (some T) none none = fun m => decide (m.timestamp < T) := by
    funext m
    simp [clearPred]
  unfold clear_messages
  rw [hpred]

/-- C10: purging with no filter arguments at all deletes every message
in the store and returns the total number of messages that were
stored; there is no guard against an unfiltered full wipe. -/
theorem C10_unfiltered_purge (store : MessageStore) :
    clear_messages store none none none = (store.length, []) := by
  have hpred : clearPred none none none = fun _ => true := by
    funext m
    simp [clearPred]
  unfold clear_messages
  rw [hpred]
  simp

/-- C8 counterexample: ProgressReporter.update forwards the raw
transport ratio without clamping or monotonicity enforcement, so a
callback with current count above the total reports a value outside
the interval from 0 to 100, and consecutive callbacks can report a
strictly decreasing pair of values. -/
theorem C8_counterexample :
    progressUpdate 300 (some 200) = some 150 ∧ ¬ ((150 : Rat) ≤ 100) ∧
    progressUpdate 50 (some 200) = some 25 ∧
    progressUpdate 40 (some 200) = some 20 ∧ (20 : Rat) < 25 := by
  refine ⟨?_, by norm_num, ?_, ?_, by norm_num⟩ <;>
    · rw [progressUpdate_pos _ _ (by norm_num)]
      norm_num

/-- C8 amended: a reported percent always equals the transport's
current count divided by its total times 100; it lies within 0 to 100
whenever the current count does not exceed the total, and two reports
are ordered whenever the transport's ratios are, so the sequence is
non-decreasing exactly when the transport's ratios are non-decreasing
with counts bounded by the totals. -/
theorem C8_progress_bounded_monotone (c t c2 t2 : Nat) (ht : 0 < t) (ht2 : 0 < t2)
    (hc : c ≤ t) (hmono : c * t2 ≤ c2 * t) :
    progressUpdate c (some t) = some ((c : Rat) / (t : Rat) * 100) ∧
    0 ≤ (c : Rat) / (t : Rat) * 100 ∧
    (c : Rat) / (t : Rat) * 100 ≤ 100 ∧
    (c : Rat) / (t : Rat) * 100 ≤ (c2 : Rat) / (t2 : Rat) * 100 := by
  have ht' : (0 : Rat) < t := by exact_mod_cast ht
  have ht2' : (0 : Rat) < t2 := by exact_mod_cast ht2
  refine ⟨progressUpdate_pos c t ht, by positivity, ?_, ?_⟩
  · have hc' : (c : Rat) ≤ t := by exact_mod_cast hc
    have h1 : (c : Rat) / t ≤ 1 := (div_le_one ht').mpr hc'
    calc (c : Rat) / t * 100 ≤ 1 * 100 :=
          mul_le_mul_of_nonneg_right h1 (by norm_num)
      _ = 100 := one_mul 100
  · have hmono' : (c : Rat) * t2 ≤ (c2 : Rat) * t := by exact_mod_cast hmono
    have hdiv : (c : Rat) / t ≤ (c2 : Rat) / t2 :=
      (div_le_div_iff₀ ht' ht2').mpr hmono'
    exact mul_le_mul_of_nonneg_right hdiv (by norm_num)

theorem C8_progress_bounded_monotone_witness :
    progressUpdate 50 (some 200) = some ((50 : Rat) / (200 : Rat) * 100) ∧
    0 ≤ (50 : Rat) / (200 : Rat) * 100 ∧
    (50 : Rat) / (200 : Rat) * 100 ≤ 100 ∧
    (50 : Rat) / (200 : Rat) * 100 ≤ (200 : Rat) / (200 : Rat) * 100 :=
  C8_progress_bounded_monotone 50 200 200 200 (by norm_num) (by norm_num)
    (by norm_num) (by norm_num)

/-- C9 counterexample: TokenManager.remove_token calls
keyring.delete_password with no exception handling, so removing a
provider entry that is not stored raises PasswordDeleteError instead
of succeeding as a no-op. -/
theorem C9_counterexample :
    remove_token [] "github" = Except.error PasswordDeleteError.itemNotFound ∧
    remove_token [("gitlab", "tok")] "github" =
      Except.error PasswordDeleteError.itemNotFound := by
  decide

/-- C9 amended: removing an absent entry is a harmless no-op for
CredentialManager.delete_credential, which swallows the
PasswordDeleteError; TokenManager.remove_token, however, propagates
that error to the caller. -/
theorem C9_delete_absent (vault : Vault) (key : String)
    (h : ∀ e ∈ vault, e.1 ≠ key) :
    delete_credential vault key = vault ∧
    remove_token vault key = Except.error PasswordDeleteError.itemNotFound := by
  have hany : vault.any (fun e => e.1 == key) = false := by
    rw [List.any_eq_false]
    intro e he
    simpa using h e he
  constructor
  · unfold delete_credential keyring_delete_password
    rw [hany]
    rfl
  · unfold remove_token keyring_delete_password
    rw [hany]
    rfl

theorem C9_delete_absent_witness :
    delete_credential [("gitlab", "tok")] "github" = [("gitlab", "tok")] ∧
    remove_token [("gitlab", "tok")] "github" =
      Except.error PasswordDeleteError.itemNotFound :=
  C9_delete_absent [("gitlab", "tok")] "github" (by decide)

/-- A stored Progress-kind message used as the starting state of the
C5 counterexample. -/
def progMsg : Message :=
  { type := MessageType.progress, text := "cloning", timestamp := 0,
    source := "job1", details := none, progress := some 10 }

/-- C5 counterexample: recording a Progress-kind event through
MessageCenter.add_message when the most recent message for the source
is already Progress-kind appends a second row instead of updating the
first in place, so the store holds two live Progress rows for the
source. -/
theorem C5_counterexample :
    (add_message [progMsg] "cloning" MessageType.progress "job1" none (some 20) 1).1 =
      [progMsg,
       { type := MessageType.progress, text := "cloning", timestamp := 1,
         source := "job1", details := none, progress := some 20 }] ∧
    ((add_message [progMsg] "cloning" MessageType.progress "job1" none (some 20) 1).1.filter
      (isProgressRowFor "job1")).length = 2 := by
  decide

/-- C5 amended: add_message appends a new row for every kind, Progress
included; the in-place update of the latest Progress-kind message for
a source is performed only by the separate update_progress method,
which never changes the number of rows and, at every position, either
keeps the stored row or rewrites a Progress-kind row of the given
source. -/
theorem C5_record_appends (store : MessageStore) (text : String)
    (ty : MessageType) (source : String) (d : Option (List (String × String)))
    (p : Option Rat) (now : Nat) (s : String) (pr : Rat) (txt : Option String) :
    (add_message store text ty source d p now).1 =
      store ++ [{ type := ty, text := text, timestamp := now, source := source,
                  details := storedDetails d, progress := p }] ∧
    (update_progress store s pr txt).length = store.length ∧
    ∀ i : Nat, (update_progress store s pr txt)[i]? = store[i]? ∨
      ∃ m, store[i]? = some m ∧ isProgressRowFor s m = true ∧
        (update_progress store s pr txt)[i]? = some (progressUpdateRow pr txt m) := by
  refine ⟨rfl, ?_, ?_⟩
  · unfold update_progress
    cases latestProgressTs s store
    · rfl
    · exact updateFirstWith_length _ _ _ _
  · intro i
    unfold update_progress
    cases latestProgressTs s store
    · left; rfl
    · exact updateFirstWith_getElem _ _ _ _ _

/-- C7 counterexample: recording a message whose details map is the
empty dict and immediately querying it back returns a message whose
details field is absent, because add_message stores
`json.dumps(details) if details else None` and the empty dict is falsy
in Python; the queried message therefore differs from the recorded one
in the details field. -/
theorem C7_counterexample :
    (add_message [] "cloned" MessageType.info "job1" (some []) none 0).2.details =
      some [] ∧
    get_messages (add_message [] "cloned" MessageType.info "job1" (some []) none 0).1
        (some 1) none (some "job1") none =
      [{ type := MessageType.info, text := "cloned", timestamp := 0, source := "job1",
         details := none, progress := none }] ∧
    get_messages (add_message [] "cloned" MessageType.info "job1" (some []) none 0).1
        (some 1) none (some "job1") none ≠
      [(add_message [] "cloned" MessageType.info "job1" (some []) none 0).2] := by
  decide

/-- C7 amended: record followed by a query filtered to the source with
limit 1 returns exactly the recorded message, equal in every field,
provided the details map, when present, is non-empty (an empty details
map is stored as NULL and reads back as absent) and the new message is
strictly newer than everything already stored. -/
theorem C7_roundtrip (store : MessageStore) (text : String) (ty : MessageType)
    (source : String) (d : Option (List (String × String))) (p : Option Rat)
    (now : Nat) (hd : d ≠ some [])
    (hfresh : ∀ m ∈ store, m.timestamp < now) :
    get_messages (add_message store text ty source d p now).1
        (some 1) none (some source) none =
      [(add_message store text ty source d p now).2] := by
  have hsd : storedDetails d = d := by
    match d with
    | none => rfl
    | some [] => exact absurd rfl hd
    | some (x :: xs) => rfl
  set row : Message :=
    { type := ty, text := text, timestamp := now, source := source,
      details := storedDetails d, progress := p } with hrow
  have hfilter :
      ((store ++ [row]).filter (matchesFilters none (some source) none)) =
        store.filter (matchesFilters none (some source) none) ++ [row] := by
    rw [List.filter_append]
    congr 1
    have : matchesFilters none (some source) none row = true := by
      simp only [matchesFilters, hrow]
      split <;> simp
    simp [this]
  have hmax : ∀ y ∈ store.filter (matchesFilters none (some source) none),
      y.timestamp < row.timestamp := by
    intro y hy
    exact hfresh y (List.mem_of_mem_filter hy)
  show (match (some 1 : Option Nat) with
    | none => sortByTsDesc ((store ++ [row]).filter (matchesFilters none (some source) none))
    | some 0 => sortByTsDesc ((store ++ [row]).filter (matchesFilters none (some source) none))
    | some (n + 1) =>
      (sortByTsDesc ((store ++ [row]).filter (matchesFilters none (some source) none))).take
        (n + 1)) = [(add_message store text ty source d p now).2]
  rw [hfilter, sortByTsDesc_append_max _ _ hmax]
  show row :: (sortByTsDesc (store.filter (matchesFilters none (some source) none))).take 0 = _
  simp only [List.take_zero]
  have : (add_message store text ty source d p now).2 =
      { type := ty, text := text, timestamp := now, source := source,
        details := d, progress := p } := rfl
  rw [this, hrow, hsd]

theorem C7_roundtrip_witness :
    ((some [("key", "value")] : Option (List (String × String))) ≠ some []) ∧
    get_messages
        (add_message [progMsg] "done" MessageType.success "job2"
          (some [("key", "value")]) (some 100) 5).1
        (some 1) none (some "job2") none =
      [(add_message [progMsg] "done" MessageType.success "job2"
          (some [("key", "value")]) (some 100) 5).2] :=
  ⟨by decide,
   C7_roundtrip [progMsg] "done" MessageType.success "job2"
     (some [("key", "value")]) (some 100) 5 (by decide) (by decide)⟩

/-- A gitlab repository used by the C3 counterexample. -/
def repoG : Repository :=
  { name := "proj", service := "gitlab", url := "https://gitlab.com/u/proj.git" }

/-- The repositories a provider oracle contributes to the aggregate:
its listing when it succeeded, nothing otherwise. -/
def okRepos : Option (Except String (List Repository)) → List Repository
  | some (Except.ok rs) => rs
  | _ => []

/-- The error messages a provider oracle contributes to the log: the
raised message when its listing failed, nothing otherwise. -/
def loggedErrors : Option (Except String (List Repository)) → List String
  | some (Except.error e) => [e]
  | _ => []

/-- C3 counterexample: RepositoryHandler.list_all_repos has no
per-provider exception handling, so when the github listing raises,
the whole fetch raises: the gitlab results, although available, are
lost and aggregation from the remaining providers does not complete. -/
theorem C3_counterexample :
    list_all_repos (Except.error "github boom") (Except.ok [repoG]) (Except.ok []) =
      Except.error "github boom" ∧
    list_all_repos (Except.error "github boom") (Except.ok [repoG]) (Except.ok []) ≠
      Except.ok [repoG] := by
  decide

/-- C3 amended: the stated partial-failure aggregation holds for
RepoManager.get_all_repositories — a provider whose listing raises is
excluded and its error logged, the remaining providers still
contribute, and the result is the concatenation of each provider's own
order with providers visited in the fixed order github, gitlab,
bitbucket; RepositoryHandler.list_all_repos, by contrast, propagates
the first provider error and aborts the fetch. -/
theorem C3_catalog_error_exclusion
    (gh gl bb : Option (Except String (List Repository))) :
    get_all_repositories gh gl bb =
      (okRepos gh ++ okRepos gl ++ okRepos bb,
       loggedErrors gh ++ loggedErrors gl ++ loggedErrors bb) := by
  rcases gh with _ | (e1 | r1) <;> rcases gl with _ | (e2 | r2) <;>
    rcases bb with _ | (e3 | r3) <;>
    simp [get_all_repositories, fetchStep, okRepos, loggedErrors]

/-- Repository A of the download scenarios: its target directory
already exists. -/
def repoA : Repository :=
  { name := "repoA", service := "github", url := "https://example.com/a.git" }

/-- Repository B of the download scenarios: its clone would succeed. -/
def repoB : Repository :=
  { name := "repoB", service := "github", url := "https://example.com/b.git" }

/-- A git transport oracle whose clones always succeed, creating the
target directory. -/
def cloneOk : Repository → FsPath → Except String (List FsPath) :=
  fun _ target => Except.ok [target]

/-- C2: when the path destination slash repository name already exists
at submission time, download_repository fails with the conflict error
(the ValueError mapped to ConflictError by the spec), the clone is
never started (the outcome does not depend on the transport oracle),
and the pre-existing target directory and everything beneath it are
left exactly as they were. -/
theorem C2_conflict_no_clobber
    (clone clone2 : Repository → FsPath → Except String (List FsPath))
    (fs : List FsPath) (repo : Repository) (dest : FsPath)
    (h : dest ++ [repo.name] ∈ fs) :
    (download_repository clone fs repo dest).1 =
      Except.error (RepoError.conflictError (dest ++ [repo.name])) ∧
    download_repository clone fs repo dest = download_repository clone2 fs repo dest ∧
    ∀ p : FsPath, (dest ++ [repo.name]) <+: p →
      (p ∈ (download_repository clone fs repo dest).2 ↔ p ∈ fs) := by
  have hmem : dest ++ [repo.name] ∈ mkdirParents fs dest := by
    unfold mkdirParents
    exact List.mem_append_left _ h
  have hdl : ∀ cl : Repository → FsPath → Except String (List FsPath),
      download_repository cl fs repo dest =
        (Except.error (RepoError.conflictError (dest ++ [repo.name])),
         mkdirParents fs dest) := by
    intro cl
    unfold download_repository
    rw [if_pos hmem]
  refine ⟨by rw [hdl clone], by rw [hdl clone, hdl clone2], ?_⟩
  intro p hp
  rw [hdl clone]
  show p ∈ mkdirParents fs dest ↔ p ∈ fs
  unfold mkdirParents
  rw [List.mem_append]
  constructor
  · rintro (hfs | hnew)
    · exact hfs
    · exfalso
      have hlen : dest.length + 1 ≤ p.length := by
        have := hp.length_le
        simpa using this
      have hanc : p ∈ pathAncestors dest := List.mem_of_mem_filter hnew
      unfold pathAncestors at hanc
      rw [List.mem_map] at hanc
      rcases hanc with ⟨n, _, hn⟩
      have : p.length ≤ dest.length := by
        rw [← hn]
        simp
      omega
  · exact fun hfs => Or.inl hfs

theorem C2_conflict_no_clobber_witness :
    (["dl"] ++ [repoA.name] ∈ [["dl"], ["dl", "repoA"]]) ∧
    (download_repository cloneOk [["dl"], ["dl", "repoA"]] repoA ["dl"]).1 =
      Except.error (RepoError.conflictError (["dl"] ++ [repoA.name])) :=
  ⟨by decide,
   (C2_conflict_no_clobber cloneOk cloneOk [["dl"], ["dl", "repoA"]] repoA ["dl"]
     (by decide)).1⟩

/-- C1 counterexample: a batch download of repoA and repoB to a
destination where repoA's target directory already exists attempts
only repoA — the conflict exception propagates out of the unguarded
for-loop in MultiDownloadScreen._download, so repoB is never
attempted and never cloned. -/
theorem C1_counterexample :
    multi_download cloneOk [["dl"], ["dl", "repoA"]] [repoA, repoB] ["dl"] =
      (Except.error (RepoError.conflictError ["dl", "repoA"]),
       [["dl"], ["dl", "repoA"], []], ["repoA"]) ∧
    "repoB" ∉ (multi_download cloneOk [["dl"], ["dl", "repoA"]] [repoA, repoB] ["dl"]).2.2 ∧
    ["dl", "repoB"] ∉
      (multi_download cloneOk [["dl"], ["dl", "repoA"]] [repoA, repoB] ["dl"]).2.1 := by
  decide

/-- C1 amended: in a batch download, every repository before the first
failure runs, but as soon as one download raises, the exception
propagates out of the batch loop with that error: the failing
repository is the last one attempted and the remaining repositories
are not attempted at all. -/
theorem C1_batch_aborts_on_failure
    (clone : Repository → FsPath → Except String (List FsPath))
    (fs : List FsPath) (pre : List Repository) (r : Repository)
    (rest : List Repository) (dest : FsPath) (e : RepoError) (fs2 : List FsPath)
    (hpre : (multi_download clone fs pre dest).1 = Except.ok ())
    (hfail : download_repository clone (multi_download clone fs pre dest).2.1 r dest =
      (Except.error e, fs2)) :
    multi_download clone fs (pre ++ r :: rest) dest =
      (Except.error e, fs2, (multi_download clone fs pre dest).2.2 ++ [r.name]) := by
  induction pre generalizing fs with
  | nil =>
    exact multi_download_cons_error clone fs r rest dest e fs2 hfail
  | cons q qs ih =>
    cases hq : download_repository clone fs q dest with
    | mk res fs1 =>
      cases res with
      | error e0 =>
        rw [multi_download_cons_error clone fs q qs dest e0 fs1 hq] at hpre
        simp at hpre
      | ok u =>
        cases u
        have hqs := multi_download_cons_ok clone fs q qs dest fs1 hq
        have hall := multi_download_cons_ok clone fs q (qs ++ r :: rest) dest fs1 hq
        rw [hqs] at hpre hfail
        dsimp only at hpre hfail
        have hrec := ih fs1 hpre hfail
        rw [List.cons_append, hall, hrec, hqs]
        rfl

theorem C1_batch_aborts_on_failure_witness :
    (multi_download cloneOk [["dl"], ["dl", "repoA"]] [] ["dl"]).1 = Except.ok () ∧
    multi_download cloneOk [["dl"], ["dl", "repoA"]] ([] ++ repoA :: [repoB]) ["dl"] =
      (Except.error (RepoError.conflictError ["dl", "repoA"]),
       [["dl"], ["dl", "repoA"], []],
       (multi_download cloneOk [["dl"], ["dl", "repoA"]] [] ["dl"]).2.2 ++ ["repoA"]) :=
  ⟨by decide,
   C1_batch_aborts_on_failure cloneOk [["dl"], ["dl", "repoA"]] [] repoA [repoB] ["dl"]
     (RepoError.conflictError ["dl", "repoA"]) [["dl"], ["dl", "repoA"], []]
     (by decide) (by decide)⟩

end RepoTool
